import Mathlib

/-!
Verification of the ToneMatrixRedux rendering/input core against its
natural-language specification.

Shallow embedding conventions:
* JS numbers that flow through pointer/particle arithmetic can be IEEE NaN;
  they are embedded as `Option ℚ` (`none` = NaN, `some q` = a finite value).
  Every arithmetic or comparison operation on them mirrors the IEEE rule the
  source relies on: arithmetic propagates NaN, every comparison with NaN is
  false.  Finite values are embedded as rationals; the claims under scrutiny
  concern order/branching behaviour, not rounding of float arithmetic.
* JS integers (grid sizes, canvas backing-store sizes, indices) are `ℕ`/`ℤ`.
* Division by a positive divisor is exact rational division; all call sites
  established by the claims have positive grid/canvas dimensions (a zero
  grid dimension would produce an Infinity cell size in JS and is "caller
  error" per the spec).
* `Tile.ts`, `SynthInstrument.ts`, `ParticleSystem.ts` and `SpriteSheet.ts`
  are not part of the provided sources; their small state models are marked
  "Modelled from the spec" below.  Everything else is translated directly
  from `Util.ts`, `Grid.ts` and `GridCanvasRenderer.ts`.
-/

namespace ToneMatrix

/-- Embedding of `Util.coordToIndex(x, y, gridHeight) = x * gridHeight + y`
(`src/src/Util.ts`). -/
def coordToIndex (x y gridHeight : ℤ) : ℤ :=
  x * gridHeight + y

/-- JS remainder `a % b` (the sign follows the dividend) for `b ≠ 0`.
For `0 ≤ a` it agrees with the Euclidean remainder; JS `a % 0` would be NaN
but every call site divides by a positive grid height. -/
def jsRem (a b : ℤ) : ℤ :=
  if 0 ≤ a then a % b else -((-a) % b)

/-- Embedding of `Util.indexToCoord(index, gridHeight) =
{ x: Math.floor(index / gridHeight), y: index % gridHeight }`
(`src/src/Util.ts`).  `Math.floor` of the real quotient is the rational
floor (`Rat.floor`, kept executable); `%` is the JS remainder. -/
def indexToCoord (index gridHeight : ℤ) : ℤ × ℤ :=
  (((index : ℚ) / (gridHeight : ℚ)).floor, jsRem index gridHeight)

/-- JS numbers in pixel space: `none` is NaN, `some q` a finite value. -/
abbrev JSNum := Option ℚ

/-- Result object `{ x, y }` of `pixelCoordsToTileCoords`; a field is `none`
when the JS computation produced NaN (`Math.floor(NaN) = NaN`). -/
structure TileCoord where
  x : Option ℤ
  y : Option ℤ
  deriving DecidableEq, Repr

/-- IEEE `>=` against an integer bound: false when the left side is NaN. -/
def jsGE (a : Option ℤ) (b : ℤ) : Bool :=
  match a with
  | none => false
  | some v => decide (b ≤ v)

/-- IEEE `<` against an integer bound: false when the left side is NaN. -/
def jsLT (a : Option ℤ) (b : ℤ) : Bool :=
  match a with
  | none => false
  | some v => decide (v < b)

/-- NaN-propagating `Math.floor(x / d)` for a finite divisor `d`
(executable rational floor). -/
def jsFloorDiv (x : JSNum) (d : ℚ) : Option ℤ :=
  x.map fun a => (a / d).floor

/-- Embedding of `GridCanvasRenderer.pixelCoordsToTileCoords`
(`src/unnamed/part_000`, lines 291-312).  `canvasWidth`/`canvasHeight` are
the backing-store sizes read from `this.canvas` at call time.  Note the
source compares `yCoord` against `gridWidth`, not `gridHeight` (the
asymmetric bound flagged in spec §9); this embedding keeps that comparison
verbatim.  The outer `none` is the sentinel `false` returned by the source;
`some t` is the returned coordinate object (always truthy in JS, even with
NaN fields). -/
def pixelCoordsToTileCoords (x y : JSNum) (gridWidth gridHeight : ℕ)
    (canvasWidth canvasHeight : ℚ) : Option TileCoord :=
  let dx := canvasWidth / (gridWidth : ℚ)
  let dy := canvasHeight / (gridHeight : ℚ)
  let xCoord := jsFloorDiv x dx
  let yCoord := jsFloorDiv y dy
  if jsGE xCoord (gridWidth : ℤ) || jsGE yCoord (gridWidth : ℤ)
      || jsLT xCoord 0 || jsLT yCoord 0 then
    none
  else
    some ⟨xCoord, yCoord⟩

/-- Helper: `Rat.floor` agrees with the floor-ring floor. -/
theorem ratFloor_eq_floor (q : ℚ) : q.floor = ⌊q⌋ := by
  rw [Rat.floor_def, Rat.floor_def']

/-- Helper: the rational floor of an integer quotient is Euclidean division
(for a positive divisor). -/
theorem floor_cast_div_eq_ediv (i h : ℤ) (hh : 0 < h) :
    ⌊(i : ℚ) / (h : ℚ)⌋ = i / h := by
  obtain ⟨n, rfl⟩ : ∃ n : ℕ, (n : ℤ) = h := ⟨h.toNat, Int.toNat_of_nonneg hh.le⟩
  push_cast
  exact_mod_cast Rat.floor_intCast_div_natCast i n

/-- Helper: round-trip of the coordinate mapper on the valid domain,
shared by several claims. -/
theorem indexToCoord_coordToIndex (x y h : ℤ) (hx : 0 ≤ x) (hy : 0 ≤ y)
    (hyh : y < h) :
    indexToCoord (coordToIndex x y h) h = (x, y) := by
  have hh : 0 < h := lt_of_le_of_lt hy hyh
  have hnn : 0 ≤ x * h + y := by nlinarith
  unfold indexToCoord coordToIndex jsRem
  rw [if_pos hnn, ratFloor_eq_floor]
  have hq : ((x * h + y : ℤ) : ℚ) / (h : ℚ) = (x : ℚ) + (y : ℚ) / (h : ℚ) := by
    have hne : (h : ℚ) ≠ 0 := by exact_mod_cast hh.ne'
    push_cast
    rw [add_div, mul_div_cancel_right₀ _ hne]
  have hzero : ⌊(y : ℚ) / (h : ℚ)⌋ = 0 := by
    have h0 : (0 : ℚ) ≤ (y : ℚ) / (h : ℚ) := by positivity
    have h1v : (y : ℚ) / (h : ℚ) < 1 := by
      rw [div_lt_one (by exact_mod_cast hh)]
      exact_mod_cast hyh
    rw [Int.floor_eq_zero_iff]
    exact ⟨h0, h1v⟩
  have hfloor : ⌊((x * h + y : ℤ) : ℚ) / (h : ℚ)⌋ = x := by
    rw [hq, Int.floor_int_add, hzero, add_zero]
  have hmod : (x * h + y) % h = y := by
    have hcomm : x * h + y = y + h * x := by ring
    rw [hcomm, Int.add_mul_emod_self_left, Int.emod_eq_of_lt hy hyh]
  rw [hfloor, hmod]

/-- Helper: reconstruction of the index from the mapped coordinates,
shared by several claims. -/
theorem coordToIndex_indexToCoord (i h : ℤ) (hi : 0 ≤ i) (hh : 0 < h) :
    coordToIndex (indexToCoord i h).1 (indexToCoord i h).2 h = i := by
  unfold indexToCoord coordToIndex jsRem
  rw [if_pos hi]
  simp only
  rw [ratFloor_eq_floor, floor_cast_div_eq_ediv i h hh]
  have hdm := Int.ediv_add_emod i h
  linear_combination hdm

/-- C2: for all integers with `0 ≤ x < width` and `0 ≤ y < height`,
`indexToCoord (coordToIndex x y height) height = (x, y)`: the two
Coordinate Mapper functions are mutually inverse on that domain. -/
theorem coord_mapper_roundtrip (x y width height : ℤ)
    (hx0 : 0 ≤ x) (hxw : x < width) (hy0 : 0 ≤ y) (hyh : y < height) :
    indexToCoord (coordToIndex x y height) height = (x, y) :=
  indexToCoord_coordToIndex x y height hx0 hy0 hyh

/-- Witness for C2 at the concrete point `(x, y) = (2, 3)` in a `4 × 5`
grid. -/
theorem coord_mapper_roundtrip_witness :
    (0 : ℤ) ≤ 2 ∧ (2 : ℤ) < 4 ∧ (0 : ℤ) ≤ 3 ∧ (3 : ℤ) < 5 ∧
      indexToCoord (coordToIndex 2 3 5) 5 = (2, 3) :=
  ⟨by decide, by decide, by decide, by decide,
    coord_mapper_roundtrip 2 3 4 5 (by decide) (by decide) (by decide)
      (by decide)⟩

/-- C1: the y bound of `pixelCoordsToTileCoords` is checked against
`gridWidth` instead of `gridHeight`.  On a `2 × 4` grid over an `8 × 8`
canvas the in-area pixel `(0, 7)` (claimed to map to tile `(0, 3)`) is
rejected with the sentinel, and on a `4 × 2` grid the out-of-area pixel
`(0, 9)` (claimed to yield the sentinel) is mapped to the out-of-bounds
tile `(0, 2)`. -/
theorem pixelCoordsToTileCoords_y_bound_bug :
    pixelCoordsToTileCoords (some 0) (some 7) 2 4 8 8 = none ∧
      pixelCoordsToTileCoords (some 0) (some 9) 4 2 8 8 =
        some ⟨some 0, some 2⟩ := by
  constructor <;>
    · simp only [pixelCoordsToTileCoords, jsFloorDiv, jsGE, jsLT,
        Option.map_some', ratFloor_eq_floor]
      norm_num

/-- Modelled from the spec: `Tile.ts` is not among the provided sources.
Spec §3: a Tile holds, per instrument channel, an optional note handle,
and is empty exactly when no note handle is set.  The association list
maps an instrument channel to its note handle. -/
structure Tile where
  notes : List (ℕ × ℕ)
  deriving DecidableEq, Repr

/-- Modelled from the spec: whether channel `i` holds a note handle. -/
def Tile.hasNote (t : Tile) (i : ℕ) : Bool :=
  (t.notes.lookup i).isSome

/-- Modelled from the spec: the note handle stored for channel `i`. -/
def Tile.getNote (t : Tile) (i : ℕ) : ℕ :=
  (t.notes.lookup i).getD 0

/-- Modelled from the spec: store note handle `noteId` for channel `i`. -/
def Tile.addNote (t : Tile) (i : ℕ) (noteId : ℕ) : Tile :=
  ⟨(i, noteId) :: t.notes⟩

/-- Modelled from the spec: clear the note handle of channel `i`. -/
def Tile.removeNote (t : Tile) (i : ℕ) : Tile :=
  ⟨t.notes.filter fun p => p.1 != i⟩

/-- Modelled from the spec: a tile is empty when no note handle is set. -/
def Tile.isEmpty (t : Tile) : Bool :=
  t.notes.isEmpty

/-- Modelled from the spec: `SynthInstrument.ts` is not among the provided
sources.  Spec §1/§6: an Instrument turns a tile toggle into a scheduled
sound event (`scheduleNote` returns a fresh note id, `unscheduleNote`
cancels one) and exposes the current playhead position. -/
structure SynthInstrument where
  playheadX : ℤ
  nextNoteId : ℕ
  scheduled : List ℕ
  deriving DecidableEq, Repr

/-- Modelled from the spec: schedule the note of tile `(x, y)`, returning
the fresh note id together with the updated scheduler state. -/
def SynthInstrument.scheduleNote (inst : SynthInstrument) (x y : ℤ) :
    ℕ × SynthInstrument :=
  (inst.nextNoteId,
    { inst with
      nextNoteId := inst.nextNoteId + 1,
      scheduled := inst.nextNoteId :: inst.scheduled })

/-- Modelled from the spec: cancel a previously scheduled note. -/
def SynthInstrument.unscheduleNote (inst : SynthInstrument) (noteId : ℕ) :
    SynthInstrument :=
  { inst with scheduled := inst.scheduled.filter fun n => n != noteId }

/-- Modelled from the spec: the playhead column of this instrument. -/
def SynthInstrument.getPlayheadX (inst : SynthInstrument) : ℤ :=
  inst.playheadX

/-- Embedding of the `Grid` state (`src/src/Grid.ts`): tile data indexed by
`coordToIndex x y height`, the current instrument index and the instrument
list (the constructor installs two instruments). -/
structure Grid where
  width : ℕ
  height : ℕ
  data : List Tile
  currentInstrument : ℕ
  instruments : List SynthInstrument
  deriving DecidableEq, Repr

/-- Default tile used to totalize list indexing; the `Grid.ts` operations
below never index out of bounds on constructor-reachable grids and valid
tile positions (out of bounds, JS would fault on `undefined`). -/
def defaultTile : Tile :=
  ⟨[]⟩

/-- Default instrument used to totalize list indexing (`Grid.ts` always has
`currentInstrument` within the instrument list). -/
def defaultInstrument : SynthInstrument :=
  ⟨0, 0, []⟩

/-- Index `Util.coordToIndex(x, y, this.height)` into `this.data`, as
computed by `Grid.ts`. -/
def Grid.tileIndex (g : Grid) (x y : ℤ) : ℕ :=
  (coordToIndex x y (g.height : ℤ)).toNat

/-- The tile object `this.data[Util.coordToIndex(x, y, this.height)]`. -/
def Grid.tileAt (g : Grid) (x y : ℤ) : Tile :=
  g.data.getD (g.tileIndex x y) defaultTile

/-- Embedding of `Grid.getTileValue` (`src/src/Grid.ts`, lines 74-76). -/
def Grid.getTileValue (g : Grid) (x y : ℤ) : Bool :=
  (g.tileAt x y).hasNote g.currentInstrument

/-- Embedding of `Grid.getPlayheadX` (`src/src/Grid.ts`, lines 64-66). -/
def Grid.getPlayheadX (g : Grid) : ℤ :=
  (g.instruments.getD g.currentInstrument defaultInstrument).getPlayheadX

/-- Embedding of `Grid.setTileValue` (`src/src/Grid.ts`, lines 84-100):
turning a tile on schedules a note and stores its handle; turning it off
unschedules the stored note and removes the handle; if the tile already
has the requested value the method returns at once. -/
def Grid.setTileValue (g : Grid) (x y : ℤ) (bool : Bool) : Grid :=
  if bool then
    if g.getTileValue x y then g
    else
      let inst := g.instruments.getD g.currentInstrument defaultInstrument
      let sched := inst.scheduleNote x y
      { g with
        data := g.data.set (g.tileIndex x y)
          ((g.tileAt x y).addNote g.currentInstrument sched.1),
        instruments := g.instruments.set g.currentInstrument sched.2 }
  else
    if !g.getTileValue x y then g
    else
      let inst := g.instruments.getD g.currentInstrument defaultInstrument
      let inst2 :=
        inst.unscheduleNote ((g.tileAt x y).getNote g.currentInstrument)
      { g with
        data := g.data.set (g.tileIndex x y)
          ((g.tileAt x y).removeNote g.currentInstrument),
        instruments := g.instruments.set g.currentInstrument inst2 }

/-- C10: if `getTileValue x y` already equals `v`, then `setTileValue x y v`
returns with the grid completely unchanged — no tile's note state changes
and no note is scheduled or unscheduled (so repeated identical calls never
double-schedule a note). -/
theorem setTileValue_same_value_noop (g : Grid) (x y : ℤ) (v : Bool)
    (h : g.getTileValue x y = v) :
    g.setTileValue x y v = g := by
  cases v
  · simp [Grid.setTileValue, h]
  · simp [Grid.setTileValue, h]

/-- A concrete 2-by-2 grid with all tiles off and the two
constructor-installed instruments. -/
def sampleGrid : Grid :=
  ⟨2, 2, [⟨[]⟩, ⟨[]⟩, ⟨[]⟩, ⟨[]⟩], 0, [⟨0, 0, []⟩, ⟨0, 0, []⟩]⟩

/-- Witness for C10 on `sampleGrid` at tile `(0, 0)` with `v = false`. -/
theorem setTileValue_same_value_noop_witness :
    sampleGrid.getTileValue 0 0 = false ∧
      sampleGrid.setTileValue 0 0 false = sampleGrid :=
  ⟨by decide, setTileValue_same_value_noop sampleGrid 0 0 false (by decide)⟩

/-- Particle record from `Types.ts` (`src/unnamed/part_002`): remaining
life, position and velocity.  Reachable pool states hold finite values,
embedded as rationals. -/
structure Particle where
  life : ℚ
  x : ℚ
  vx : ℚ
  y : ℚ
  vy : ℚ
  deriving DecidableEq, Repr

/-- Modelled from the spec: `ParticleSystem.ts` is not among the provided
sources.  Spec §4.2: a fixed-capacity pool (the list models the slots, its
length the capacity `PARTICLE_POOL_SIZE`), the exposed `PARTICLE_LIFETIME`
constant, and the fixed per-frame deceleration factor and life decrement. -/
structure ParticleSystem where
  particles : List Particle
  PARTICLE_LIFETIME : ℚ
  decel : ℚ
  lifeDecrement : ℚ
  deriving DecidableEq, Repr

/-- Modelled from the spec (§4.2 `advance()`): every live particle
integrates its velocity, decelerates, and loses a fixed amount of life;
dead slots are untouched. -/
def ParticleSystem.update (ps : ParticleSystem) : ParticleSystem :=
  { ps with
    particles := ps.particles.map fun p =>
      if 0 < p.life then
        { life := p.life - ps.lifeDecrement,
          x := p.x + p.vx, vx := p.vx * ps.decel,
          y := p.y + p.vy, vy := p.vy * ps.decel }
      else p }

/-- Loop body of `GridCanvasRenderer.getParticleHeatMap`
(`src/unnamed/part_000`, lines 268-274): a live particle adds its
remaining life to `heatmap[coordToIndex(tile.x, tile.y, grid.height)]`
when the mapper reports a tile.  A JS write outside `0..length-1`
(reachable only through the y-bound slip in `pixelCoordsToTileCoords`
when `gridWidth > gridHeight`) creates a stray array slot that no reader
ever consults (`draw` reads only indices below `grid.data.length`); such
writes are dropped here. -/
def heatMapStep (gridWidth gridHeight : ℕ) (canvasWidth canvasHeight : ℚ)
    (heatmap : List ℚ) (p : Particle) : List ℚ :=
  if 0 < p.life then
    match pixelCoordsToTileCoords (some p.x) (some p.y) gridWidth gridHeight
        canvasWidth canvasHeight with
    | some t =>
      match t.x, t.y with
      | some tx, some ty =>
        let idx := coordToIndex tx ty (gridHeight : ℤ)
        if 0 ≤ idx ∧ idx.toNat < heatmap.length then
          heatmap.set idx.toNat (heatmap.getD idx.toNat 0 + p.life)
        else heatmap
      | _, _ => heatmap
    | none => heatmap
  else heatmap

/-- Embedding of `GridCanvasRenderer.getParticleHeatMap`
(`src/unnamed/part_000`, lines 265-276): start from
`Array(width*height).fill(0)` and accumulate every pool slot. -/
def getParticleHeatMap (particles : List Particle)
    (gridWidth gridHeight : ℕ) (canvasWidth canvasHeight : ℚ) : List ℚ :=
  particles.foldl (heatMapStep gridWidth gridHeight canvasWidth canvasHeight)
    (List.replicate (gridWidth * gridHeight) 0)

/-- Tile index a particle's position lands on through the Coordinate
Mapper (`pixelCoordsToTileCoords` followed by `coordToIndex`), or `none`
when the mapper reports no tile. -/
def particleTileIndex (p : Particle) (gridWidth gridHeight : ℕ)
    (canvasWidth canvasHeight : ℚ) : Option ℤ :=
  match pixelCoordsToTileCoords (some p.x) (some p.y) gridWidth gridHeight
      canvasWidth canvasHeight with
  | some t =>
    match t.x, t.y with
    | some tx, some ty => some (coordToIndex tx ty (gridHeight : ℤ))
    | _, _ => none
  | none => none

/-- Helper: the heat-map loop body does not change the array length. -/
theorem heatMapStep_length (gw gh : ℕ) (cw ch : ℚ) (hm : List ℚ)
    (p : Particle) : (heatMapStep gw gh cw ch hm p).length = hm.length := by
  by_cases hlife : 0 < p.life
  · rcases hmap : pixelCoordsToTileCoords (some p.x) (some p.y) gw gh cw ch
      with _ | t
    · simp [heatMapStep, hlife, hmap]
    · obtain ⟨ox, oy⟩ := t
      rcases ox with _ | tx
      · simp [heatMapStep, hlife, hmap]
      · rcases oy with _ | ty
        · simp [heatMapStep, hlife, hmap]
        · by_cases hrange :
            0 ≤ coordToIndex tx ty (gh : ℤ) ∧
              (coordToIndex tx ty (gh : ℤ)).toNat < hm.length
          · simp [heatMapStep, hlife, hmap, hrange, List.length_set]
          · simp [heatMapStep, hlife, hmap, hrange]
  · simp [heatMapStep, hlife]

/-- Helper: pointwise effect of the heat-map loop body at a valid index. -/
theorem heatMapStep_getD (gw gh : ℕ) (cw ch : ℚ) (hm : List ℚ)
    (p : Particle) (i : ℕ) (hlen : hm.length = gw * gh)
    (hi : i < gw * gh) :
    (heatMapStep gw gh cw ch hm p).getD i 0 =
      hm.getD i 0 +
        (if 0 < p.life ∧ particleTileIndex p gw gh cw ch = some (i : ℤ)
          then p.life else 0) := by
  by_cases hlife : 0 < p.life
  · rcases hmap : pixelCoordsToTileCoords (some p.x) (some p.y) gw gh cw ch
      with _ | t
    · simp [heatMapStep, particleTileIndex, hlife, hmap]
    · obtain ⟨ox, oy⟩ := t
      rcases ox with _ | tx
      · simp [heatMapStep, particleTileIndex, hlife, hmap]
      · rcases oy with _ | ty
        · simp [heatMapStep, particleTileIndex, hlife, hmap]
        · by_cases hrange :
            0 ≤ coordToIndex tx ty (gh : ℤ) ∧
              (coordToIndex tx ty (gh : ℤ)).toNat < hm.length
          · by_cases heq : coordToIndex tx ty (gh : ℤ) = (i : ℤ)
            · have htn : (coordToIndex tx ty (gh : ℤ)).toNat = i := by
                rw [heq]
                exact Int.toNat_natCast i
              simp [heatMapStep, particleTileIndex, hlife, hmap, hrange,
                heq, htn, List.getD_eq_getElem?_getD, List.getElem?_set_self,
                hlen, hi]
            · have hne : (coordToIndex tx ty (gh : ℤ)).toNat ≠ i := by
                intro hcont
                apply heq
                omega
              simp [heatMapStep, particleTileIndex, hlife, hmap, hrange,
                heq, List.getD_eq_getElem?_getD, List.getElem?_set_ne hne]
          · have hne2 : coordToIndex tx ty (gh : ℤ) ≠ (i : ℤ) := by
              intro hcont
              apply hrange
              constructor
              · rw [hcont]
                exact Int.natCast_nonneg i
              · rw [hcont, Int.toNat_natCast, hlen]
                exact hi
            simp [heatMapStep, particleTileIndex, hlife, hmap, hrange, hne2]
  · simp [heatMapStep, particleTileIndex, hlife]

/-- Helper: accumulated effect of the heat-map loop at a valid index,
starting from an arbitrary array of the right length. -/
theorem heatmap_foldl_getD (gw gh : ℕ) (cw ch : ℚ) (i : ℕ)
    (hi : i < gw * gh) (l : List Particle) :
    ∀ hm : List ℚ, hm.length = gw * gh →
      (l.foldl (heatMapStep gw gh cw ch) hm).getD i 0 =
        hm.getD i 0 +
          ((l.filter fun p =>
              decide (0 < p.life) &&
                decide (particleTileIndex p gw gh cw ch = some (i : ℤ))).map
            Particle.life).sum := by
  induction l with
  | nil =>
    intro hm hlen
    simp
  | cons p l ih =>
    intro hm hlen
    rw [List.foldl_cons,
      ih _ (by rw [heatMapStep_length]; exact hlen),
      heatMapStep_getD gw gh cw ch hm p i hlen hi, List.filter_cons]
    by_cases h1 : 0 < p.life
    · by_cases h2 : particleTileIndex p gw gh cw ch = some (i : ℤ)
      · simp [h1, h2, add_assoc]
      · simp [h1, h2]
    · simp [h1]

/-- C6: the per-frame heat map assigns to each tile index the sum of the
remaining life of every live particle whose position maps to that tile
index through the Coordinate Mapper, starting from zero everywhere; dead
particles and particles reported as on no tile contribute nothing. -/
theorem heatmap_sums_live_particle_life (particles : List Particle)
    (gw gh : ℕ) (cw ch : ℚ) (i : ℕ) (hi : i < gw * gh) :
    (getParticleHeatMap particles gw gh cw ch).getD i 0 =
      ((particles.filter fun p =>
          decide (0 < p.life) &&
            decide (particleTileIndex p gw gh cw ch = some (i : ℤ))).map
        Particle.life).sum := by
  unfold getParticleHeatMap
  rw [heatmap_foldl_getD gw gh cw ch i hi particles _
    (List.length_replicate _ _)]
  simp [List.getD_eq_getElem?_getD, List.getElem?_replicate, hi]

/-- Witness for C6: one live particle at pixel `(1, 1)` of a `4 × 4`
canvas over a `2 × 2` grid contributes its life to tile index 0. -/
theorem heatmap_sums_live_particle_life_witness :
    (0 : ℕ) < 2 * 2 ∧
      (getParticleHeatMap [⟨2, 1, 0, 1, 0⟩] 2 2 4 4).getD 0 0 =
        (([⟨2, 1, 0, 1, 0⟩].filter fun p : Particle =>
            decide (0 < p.life) &&
              decide (particleTileIndex p 2 2 4 4 = some (0 : ℤ))).map
          Particle.life).sum :=
  ⟨by decide, heatmap_sums_live_particle_life [⟨2, 1, 0, 1, 0⟩] 2 2 4 4 0
    (by decide)⟩

/-- View snapshot recorded at the last sprite-sheet build
(`GridCanvasRenderer.lastView`, `src/unnamed/part_000`, lines 20-25).
Canvas backing-store sizes are DOM unsigned integers. -/
structure View where
  gridWidth : ℕ
  gridHeight : ℕ
  canvasWidth : ℕ
  canvasHeight : ℕ
  deriving DecidableEq, Repr

/-- Sprite sheet object: its constructor arguments
(`new SpriteSheet(grid.width, grid.height, canvas.width, canvas.height)`,
`src/unnamed/part_000`, lines 160-162) plus a build counter standing in
for JS object identity (each `new` yields a distinct identity;
`SpriteSheet.ts` itself — the atlas bitmap — is out of scope per spec §1). -/
structure SpriteSheet where
  gridWidth : ℕ
  gridHeight : ℕ
  canvasWidth : ℕ
  canvasHeight : ℕ
  buildId : ℕ
  deriving DecidableEq, Repr

/-- Mutable fields of `GridCanvasRenderer` (`src/unnamed/part_000`,
lines 11-25).  `nextBuildId` is model bookkeeping that gives each newly
built sprite sheet a fresh identity. -/
structure RendererState where
  spriteSheet : Option SpriteSheet
  particleSystem : ParticleSystem
  lastPlayheadX : ℤ
  mouseX : JSNum
  mouseY : JSNum
  dragging : Bool
  lastView : Option View
  nextBuildId : ℕ
  deriving DecidableEq, Repr

/-- Rebuild condition of `GridCanvasRenderer.getSpriteSheet`
(`src/unnamed/part_000`, lines 153-159), kept verbatim: the source
compares the recorded `canvasHeight` against the current `canvas.width`
and the recorded `canvasWidth` against the current `canvas.height`. -/
def rebuildNeeded (spriteSheet : Option SpriteSheet) (lastView : Option View)
    (gridWidth gridHeight canvasWidth canvasHeight : ℕ) : Bool :=
  match spriteSheet, lastView with
  | none, _ => true
  | _, none => true
  | some _, some v =>
    decide (v.gridWidth ≠ gridWidth) || decide (v.gridHeight ≠ gridHeight)
      || decide (v.canvasHeight ≠ canvasWidth)
      || decide (v.canvasWidth ≠ canvasHeight)

/-- Embedding of `GridCanvasRenderer.getSpriteSheet`
(`src/unnamed/part_000`, lines 152-171): on a rebuild, construct a new
sprite sheet (fresh identity) and record the current dimensions in the
view snapshot; otherwise return the cached object unchanged. -/
def getSpriteSheet (st : RendererState)
    (gridWidth gridHeight canvasWidth canvasHeight : ℕ) :
    SpriteSheet × RendererState :=
  if rebuildNeeded st.spriteSheet st.lastView gridWidth gridHeight
      canvasWidth canvasHeight then
    let sheet : SpriteSheet :=
      ⟨gridWidth, gridHeight, canvasWidth, canvasHeight, st.nextBuildId⟩
    (sheet,
      { st with
        spriteSheet := some sheet,
        lastView := some ⟨gridWidth, gridHeight, canvasWidth, canvasHeight⟩,
        nextBuildId := st.nextBuildId + 1 })
  else
    (st.spriteSheet.getD ⟨0, 0, 0, 0, 0⟩, st)

/-- Renderer state as it stands right after a first frame on a 1-by-1
grid over a 2-by-1 (non-square) canvas: the sprite sheet was built for
exactly these dimensions and the view snapshot records them. -/
def nonSquareState : RendererState :=
  { spriteSheet := some ⟨1, 1, 2, 1, 0⟩
    particleSystem := ⟨[], 1, 1, 1⟩
    lastPlayheadX := -1
    mouseX := none
    mouseY := none
    dragging := false
    lastView := some ⟨1, 1, 2, 1⟩
    nextBuildId := 1 }

/-- C3 (refuted): a second frame with identical dimensions (grid 1-by-1,
canvas 2-by-1 — none of the four tracked dimensions differs from the
snapshot) nevertheless rebuilds: the swapped canvas comparison in
`getSpriteSheet` makes the returned sheet a new object rather than the
cached one. -/
theorem getSpriteSheet_rebuilds_on_identical_nonsquare_dims :
    rebuildNeeded nonSquareState.spriteSheet nonSquareState.lastView
        1 1 2 1 = true ∧
      (getSpriteSheet nonSquareState 1 1 2 1).1 ≠ ⟨1, 1, 2, 1, 0⟩ := by
  constructor
  · decide
  · decide

/-- Kinds of tile events the renderer can emit. -/
inductive TileEventKind
  | tiledown
  | tileup
  | tilemove
  | tileclick
  deriving DecidableEq, Repr

/-- Payload of an emitted tile event: a coordinate object (possibly with
NaN fields) or the literal `false` sent for a `tileup` with no tile. -/
inductive TilePayload
  | coords (x y : Option ℤ)
  | noTile
  deriving DecidableEq, Repr

/-- Embedding of `GridCanvasRenderer.emitTileEvent`
(`src/unnamed/part_000`, lines 87-94), as the list of events one call
emits: nothing before the first frame (`lastView` still null); the
coordinate object whenever the mapper returns one (a JS object is truthy
even with NaN fields); the literal `false` for a `tileup` when the mapper
returns `false`.  The mapper is called with `lastView`'s grid dimensions
and the current canvas backing-store sizes. -/
def emitTileEvent (st : RendererState) (canvasWidth canvasHeight : ℕ)
    (event : TileEventKind) : List (TileEventKind × TilePayload) :=
  match st.lastView with
  | none => []
  | some v =>
    match pixelCoordsToTileCoords st.mouseX st.mouseY v.gridWidth
        v.gridHeight (canvasWidth : ℚ) (canvasHeight : ℚ) with
    | some t => [(event, .coords t.x t.y)]
    | none =>
      if event = .tileup then [(.tileup, .noTile)] else []

/-- Pointer/touch input as seen by the six listeners installed by the
constructor (`src/unnamed/part_000`, lines 40-84).  Positions are the
backing-store pixel coordinates that `updateCanvasMousePosition` computes
from the client coordinates and the canvas bounding rectangle (that pure
rescaling is spec §4.1 and is not itself under claim); `buttons` is the
DOM `MouseEvent.buttons` bit mask. -/
inductive InputEvent
  | mousemove (x y : ℚ)
  | mouseleave
  | mousedown (x y : ℚ) (buttons : ℕ)
  | mouseup (x y : ℚ) (buttons : ℕ)
  | touchstart (touches : List (ℚ × ℚ))
  | touchend
  | touchmove (touches : List (ℚ × ℚ))
  deriving DecidableEq, Repr

/-- One `forEach` iteration over a touch list (multi-touch `touchstart`
and `touchmove`): update the tracked position to the touch, then emit
`tilemove` (`src/unnamed/part_000`, lines 67-70 and 80-83). -/
def touchMoveStep (canvasWidth canvasHeight : ℕ)
    (acc : RendererState × List (TileEventKind × TilePayload))
    (touch : ℚ × ℚ) : RendererState × List (TileEventKind × TilePayload) :=
  let st1 := { acc.1 with mouseX := some touch.1, mouseY := some touch.2 }
  (st1, acc.2 ++ emitTileEvent st1 canvasWidth canvasHeight .tilemove)

/-- Embedding of the constructor's six event listeners
(`src/unnamed/part_000`, lines 40-84): the state update and the tile
events emitted in response to one DOM event. -/
def handleInput (st : RendererState) (canvasWidth canvasHeight : ℕ) :
    InputEvent → RendererState × List (TileEventKind × TilePayload)
  | .mousemove x y =>
    let st1 := { st with mouseX := some x, mouseY := some y }
    if st1.dragging then
      (st1, emitTileEvent st1 canvasWidth canvasHeight .tilemove)
    else (st1, [])
  | .mouseleave =>
    ({ st with mouseX := none, mouseY := none }, [])
  | .mousedown x y buttons =>
    let st1 := { st with mouseX := some x, mouseY := some y }
    if buttons &&& 1 == 0 then (st1, [])
    else
      let st2 := { st1 with dragging := true }
      (st2, emitTileEvent st2 canvasWidth canvasHeight .tiledown)
  | .mouseup x y buttons =>
    let st1 := { st with mouseX := some x, mouseY := some y }
    if !st1.dragging || buttons &&& 1 != 0 then (st1, [])
    else
      let st2 := { st1 with dragging := false }
      (st2, emitTileEvent st2 canvasWidth canvasHeight .tileup)
  | .touchstart touches =>
    if touches.length == 1 then
      let touch := touches.headD (0, 0)
      let st1 := { st with mouseX := some touch.1, mouseY := some touch.2 }
      (st1, emitTileEvent st1 canvasWidth canvasHeight .tiledown)
    else
      touches.foldl (touchMoveStep canvasWidth canvasHeight) (st, [])
  | .touchend =>
    let st1 := { st with mouseX := none, mouseY := none }
    (st1, emitTileEvent st1 canvasWidth canvasHeight .tileup)
  | .touchmove touches =>
    touches.foldl (touchMoveStep canvasWidth canvasHeight) (st, [])

/-- Folds a sequence of DOM input events through the listeners,
concatenating everything they emit. -/
def runInput (st : RendererState) (canvasWidth canvasHeight : ℕ)
    (events : List InputEvent) :
    RendererState × List (TileEventKind × TilePayload) :=
  events.foldl
    (fun acc e =>
      let r := handleInput acc.1 canvasWidth canvasHeight e
      (r.1, acc.2 ++ r.2))
    (st, [])

/-- Renderer state as initialized by the constructor
(`src/unnamed/part_000`, lines 11-25), with the modelled particle pool
left empty. -/
def initRendererState : RendererState :=
  { spriteSheet := none
    particleSystem := ⟨[], 1, 1, 1⟩
    lastPlayheadX := -1
    mouseX := none
    mouseY := none
    dragging := false
    lastView := none
    nextBuildId := 0 }

/-- Helper: `emitTileEvent` emits nothing while `lastView` is null. -/
theorem emitTileEvent_of_lastView_none (st : RendererState) (cw ch : ℕ)
    (ev : TileEventKind) (h : st.lastView = none) :
    emitTileEvent st cw ch ev = [] := by
  simp [emitTileEvent, h]

/-- Helper: the touch `forEach` loop preserves a null `lastView` and emits
nothing while it is null. -/
theorem touch_foldl_lastView_none (cw ch : ℕ) (touches : List (ℚ × ℚ)) :
    ∀ (st : RendererState) (out : List (TileEventKind × TilePayload)),
      st.lastView = none →
      (touches.foldl (touchMoveStep cw ch) (st, out)).1.lastView = none ∧
        (touches.foldl (touchMoveStep cw ch) (st, out)).2 = out := by
  induction touches with
  | nil =>
    intro st out h
    exact ⟨h, rfl⟩
  | cons t ts ih =>
    intro st out h
    rw [List.foldl_cons]
    have hstep :
        touchMoveStep cw ch (st, out) t =
          ({ st with mouseX := some t.1, mouseY := some t.2 }, out) := by
      simp [touchMoveStep, emitTileEvent, h]
    rw [hstep]
    exact ih _ _ h

/-- Helper: every listener preserves a null `lastView` and emits nothing
while it is null. -/
theorem handleInput_lastView_none (st : RendererState) (cw ch : ℕ)
    (e : InputEvent) (h : st.lastView = none) :
    (handleInput st cw ch e).1.lastView = none ∧
      (handleInput st cw ch e).2 = [] := by
  cases e with
  | mousemove x y =>
    simp only [handleInput]
    split
    · exact ⟨h, emitTileEvent_of_lastView_none _ cw ch _ h⟩
    · exact ⟨h, rfl⟩
  | mouseleave =>
    exact ⟨h, rfl⟩
  | mousedown x y buttons =>
    simp only [handleInput]
    split
    · exact ⟨h, rfl⟩
    · exact ⟨h, emitTileEvent_of_lastView_none _ cw ch _ h⟩
  | mouseup x y buttons =>
    simp only [handleInput]
    split
    · exact ⟨h, rfl⟩
    · exact ⟨h, emitTileEvent_of_lastView_none _ cw ch _ h⟩
  | touchstart touches =>
    simp only [handleInput]
    split
    · exact ⟨h, emitTileEvent_of_lastView_none _ cw ch _ h⟩
    · exact touch_foldl_lastView_none cw ch touches st [] h
  | touchend =>
    exact ⟨h, emitTileEvent_of_lastView_none _ cw ch _ h⟩
  | touchmove touches =>
    exact touch_foldl_lastView_none cw ch touches st [] h

/-- Helper: the event fold preserves a null `lastView` and emits
nothing while it is null. -/
theorem runInput_foldl_lastView_none (cw ch : ℕ) (events : List InputEvent) :
    ∀ (st : RendererState) (out : List (TileEventKind × TilePayload)),
      st.lastView = none →
      ((events.foldl
          (fun acc e =>
            let r := handleInput acc.1 cw ch e
            (r.1, acc.2 ++ r.2)) (st, out)).2 = out ∧
        (events.foldl
          (fun acc e =>
            let r := handleInput acc.1 cw ch e
            (r.1, acc.2 ++ r.2)) (st, out)).1.lastView = none) := by
  induction events with
  | nil =>
    intro st out h
    exact ⟨rfl, h⟩
  | cons e es ih =>
    intro st out h
    rw [List.foldl_cons]
    obtain ⟨h1, h2⟩ := handleInput_lastView_none st cw ch e h
    simp only [h2, List.append_nil]
    exact ih _ out h1

/-- C8: before the first `update`/`draw` call establishes the view
snapshot (`lastView` still null), no `tiledown`, `tilemove`, `tileup` or
`tileclick` event is ever emitted, whatever sequence of mouse or touch
input occurs. -/
theorem no_tile_events_before_first_frame (st : RendererState) (cw ch : ℕ)
    (events : List InputEvent) (h : st.lastView = none) :
    (runInput st cw ch events).2 = [] :=
  (runInput_foldl_lastView_none cw ch events st [] h).1

/-- Witness for C8: from the constructor state, a drag press, a move and a
touch release emit nothing. -/
theorem no_tile_events_before_first_frame_witness :
    initRendererState.lastView = none ∧
      (runInput initRendererState 256 256
        [.mousedown 8 8 1, .mousemove 9 9, .touchend]).2 = [] :=
  ⟨rfl, no_tile_events_before_first_frame initRendererState 256 256
    [.mousedown 8 8 1, .mousemove 9 9, .touchend] rfl⟩

/-- C9: every emitted `tiledown`, `tilemove` or `tileclick` carries a
coordinate object produced by `pixelCoordsToTileCoords`; when the mapper
returns the sentinel those kinds are not emitted at all, and only
`tileup` can carry the explicit `false` payload. -/
theorem emitted_payloads_come_from_mapper (st : RendererState)
    (cw ch : ℕ) (ev : TileEventKind) :
    (∀ e p, (e, p) ∈ emitTileEvent st cw ch ev → p ≠ .noTile →
      ∃ v t, st.lastView = some v ∧
        pixelCoordsToTileCoords st.mouseX st.mouseY v.gridWidth v.gridHeight
          (cw : ℚ) (ch : ℚ) = some t ∧ e = ev ∧ p = .coords t.x t.y) ∧
    (∀ v, st.lastView = some v →
      pixelCoordsToTileCoords st.mouseX st.mouseY v.gridWidth v.gridHeight
        (cw : ℚ) (ch : ℚ) = none → ev ≠ .tileup →
      emitTileEvent st cw ch ev = []) ∧
    (∀ e, (e, TilePayload.noTile) ∈ emitTileEvent st cw ch ev →
      e = .tileup) := by
  rcases hv : st.lastView with _ | v
  · refine ⟨?_, ?_, ?_⟩
    · intro e p hmem hnp
      simp [emitTileEvent, hv] at hmem
    · intro v2 hvv
      exact absurd hvv (by simp)
    · intro e hmem
      simp [emitTileEvent, hv] at hmem
  · rcases hmap : pixelCoordsToTileCoords st.mouseX st.mouseY v.gridWidth
        v.gridHeight (cw : ℚ) (ch : ℚ) with _ | t
    · refine ⟨?_, ?_, ?_⟩
      · intro e p hmem hnp
        by_cases hev : ev = TileEventKind.tileup
        · subst hev
          simp [emitTileEvent, hv, hmap] at hmem
          exact absurd hmem.2 hnp
        · simp [emitTileEvent, hv, hmap, hev] at hmem
      · intro v2 hvv hmap2 hev
        injection hvv with hvv
        subst hvv
        simp [emitTileEvent, hv, hmap, hev]
      · intro e hmem
        by_cases hev : ev = TileEventKind.tileup
        · subst hev
          simp [emitTileEvent, hv, hmap] at hmem
          exact hmem
        · simp [emitTileEvent, hv, hmap, hev] at hmem
    · refine ⟨?_, ?_, ?_⟩
      · intro e p hmem hnp
        simp [emitTileEvent, hv, hmap] at hmem
        exact ⟨v, t, rfl, hmap, hmem.1, hmem.2⟩
      · intro v2 hvv hmap2 hev
        injection hvv with hvv
        subst hvv
        simp [hmap] at hmap2
      · intro e hmem
        simp [emitTileEvent, hv, hmap] at hmem

/-- Renderer state with an established 16-by-16 view whose tracked pointer
position lies left of the canvas (no tile under it). -/
def offCanvasState : RendererState :=
  { initRendererState with
    lastView := some ⟨16, 16, 256, 256⟩
    mouseX := some (-5)
    mouseY := some 3 }

/-- Witness for C9: with the pointer off-canvas (mapper sentinel), a
non-`tileup` emission attempt emits nothing. -/
theorem emitted_payloads_come_from_mapper_witness :
    emitTileEvent offCanvasState 256 256 .tilemove = [] :=
  (emitted_payloads_come_from_mapper offCanvasState 256 256 .tilemove).2.1
    ⟨16, 16, 256, 256⟩ rfl
    (by
      simp [offCanvasState, initRendererState, pixelCoordsToTileCoords,
        jsFloorDiv, jsGE, jsLT, ratFloor_eq_floor]
      norm_num)
    (by decide)

/-- Renderer state during an active touch on tile `(8, 8)` of a 16-by-16
grid on a 256-by-256 canvas, just before the finger lifts. -/
def touchingState : RendererState :=
  { initRendererState with
    lastView := some ⟨16, 16, 256, 256⟩
    mouseX := some 136
    mouseY := some 136 }

/-- C5 (refuted): lifting the finger fires `touchend`, which resets the
tracked position to NaN and then emits `tileup`; the NaN coordinates slip
through the mapper's bounds check (every IEEE comparison with NaN is
false), so the emitted `tileup` carries the coordinate object
`{x: NaN, y: NaN}` instead of the claimed `false`. -/
theorem tileup_while_absent_carries_nan_coords :
    (handleInput touchingState 256 256 .touchend).2 =
      [(.tileup, .coords none none)] := by
  simp [handleInput, emitTileEvent, touchingState, initRendererState,
    pixelCoordsToTileCoords, jsFloorDiv, jsGE, jsLT]

/-- One particle burst request
`createParticleBurst(x, y, size, count)` issued by `draw`
(`src/unnamed/part_000`, lines 222-227). -/
structure Burst where
  x : ℚ
  y : ℚ
  size : ℚ
  count : ℕ
  deriving DecidableEq, Repr

/-- One sprite blit `spriteSheet.drawSprite(index, ctx, x, y)` together
with the context state (`globalAlpha`, tint filter) set for it. -/
structure SpriteOp where
  sprite : ℕ
  alpha : ℚ
  tint : Bool
  x : ℚ
  y : ℚ
  deriving DecidableEq, Repr

/-- Threads a state through a list (the `for` loop of `draw`, which calls
grid getters at every iteration), collecting each iteration's output. -/
def threadMap {σ α β : Type} (f : σ → α → σ × β) : σ → List α → σ × List β
  | s, [] => (s, [])
  | s, a :: as =>
    let r := f s a
    let rest := threadMap f r.1 as
    (rest.1, r.2 :: rest.2)

/-- Read `!grid.data[i].isEmpty()` (a getter call on the grid object),
returning the grid for threading. -/
def Grid.readTileOn (g : Grid) (i : ℕ) : Bool × Grid :=
  (!(g.data.getD i defaultTile).isEmpty, g)

/-- Read `grid.data[i].hasNote(1)` (the accent channel), returning the
grid for threading. -/
def Grid.readAccent (g : Grid) (i : ℕ) : Bool × Grid :=
  ((g.data.getD i defaultTile).hasNote 1, g)

/-- Read `grid.getPlayheadX()`, returning the grid for threading. -/
def Grid.readPlayheadX (g : Grid) : ℤ × Grid :=
  (g.getPlayheadX, g)

/-- Loop body of `draw` for tile index `i` (`src/unnamed/part_000`,
lines 202-244): sprite/alpha/tint selection, and the particle burst
issued when the tile is lit, sits in the playhead column, and the
playhead column differs from the previous frame's.  `0.85`, `0.3`,
`0.05` and `51/255` are the source's opacity constants. -/
def drawTileStep (gridWidth gridHeight : ℕ) (canvasWidth canvasHeight : ℚ)
    (dpr : ℚ) (playheadX lastPlayheadX : ℤ)
    (mousedOverTile : Option TileCoord) (heatmap : List ℚ)
    (lifetime : ℚ) (g : Grid) (i : ℕ) :
    Grid × (Option Burst × SpriteOp) :=
  let dx := canvasWidth / (gridWidth : ℚ)
  let dy := canvasHeight / (gridHeight : ℚ)
  let coords := indexToCoord (i : ℤ) (gridHeight : ℤ)
  let gridx := coords.1
  let gridy := coords.2
  let x := dx * (gridx : ℚ)
  let y := dy * (gridy : ℚ)
  let r1 := g.readTileOn i
  let tileOn := r1.1
  let g1 := r1.2
  let r2 := g1.readAccent i
  let tint := r2.1
  let g2 := r2.2
  if tileOn then
    if gridx = playheadX then
      let burst :=
        if playheadX ≠ lastPlayheadX then
          some (⟨dx * ((gridx : ℚ) + 1 / 2), dy * ((gridy : ℚ) + 1 / 2),
            8 * dpr, 20⟩ : Burst)
        else none
      (g2, (burst, ⟨2, 1, tint, x, y⟩))
    else
      (g2, (none, ⟨1, 17 / 20, tint, x, y⟩))
  else
    if (mousedOverTile.map fun t =>
        t.x == some gridx && t.y == some gridy).getD false then
      (g2, (none, ⟨0, 3 / 10, tint, x, y⟩))
    else
      (g2, (none, ⟨0,
        heatmap.getD i 0 * (1 / 20) * (204 / 255) / lifetime + 51 / 255,
        tint, x, y⟩))

/-- Result of one `draw` call: the updated renderer state, the grid as the
loop leaves it (threaded through every read), and the burst requests and
sprite blits issued in order. -/
structure DrawResult where
  st : RendererState
  grid : Grid
  bursts : List Burst
  ops : List SpriteOp
  deriving Repr

/-- Embedding of `GridCanvasRenderer.draw` (`src/unnamed/part_000`,
lines 180-259): read the playhead, clear the canvas (a pixel-buffer
effect, not tracked), compute the heat map, resolve the sprite sheet
(possibly rebuilding it and updating `lastView`), resolve the hovered
tile, run the tile loop, and record the playhead column in
`lastPlayheadX`.  `Util.DEBUG` is `false` (`src/src/Util.ts`, line 14),
so the debug particle markers are skipped. -/
def draw (st : RendererState) (canvasWidth canvasHeight : ℕ) (dpr : ℚ)
    (g : Grid) (mouseX mouseY : JSNum) : DrawResult :=
  let r0 := g.readPlayheadX
  let playheadX := r0.1
  let g0 := r0.2
  let heatmap := getParticleHeatMap st.particleSystem.particles g0.width
    g0.height (canvasWidth : ℚ) (canvasHeight : ℚ)
  let r1 := getSpriteSheet st g0.width g0.height canvasWidth canvasHeight
  let st1 := r1.2
  let mousedOverTile := pixelCoordsToTileCoords mouseX mouseY g0.width
    g0.height (canvasWidth : ℚ) (canvasHeight : ℚ)
  let r2 := threadMap
    (drawTileStep g0.width g0.height (canvasWidth : ℚ) (canvasHeight : ℚ)
      dpr playheadX st.lastPlayheadX mousedOverTile heatmap
      st.particleSystem.PARTICLE_LIFETIME)
    g0 (List.range g0.data.length)
  { st := { st1 with lastPlayheadX := playheadX },
    grid := r2.1,
    bursts := r2.2.filterMap Prod.fst,
    ops := r2.2.map Prod.snd }

/-- Embedding of `GridCanvasRenderer.update` (`src/unnamed/part_000`,
lines 147-150): advance the particle pool, then draw with the tracked
pointer position. -/
def GridCanvasRenderer.update (st : RendererState)
    (canvasWidth canvasHeight : ℕ) (dpr : ℚ) (g : Grid) : DrawResult :=
  let st1 := { st with particleSystem := st.particleSystem.update }
  draw st1 canvasWidth canvasHeight dpr g st1.mouseX st1.mouseY

/-- Helper: the tile loop body returns the grid unchanged. -/
theorem drawTileStep_grid (gw gh : ℕ) (cw ch : ℚ) (dpr : ℚ)
    (ph lph : ℤ) (mot : Option TileCoord) (hm : List ℚ) (lt : ℚ)
    (g : Grid) (i : ℕ) :
    (drawTileStep gw gh cw ch dpr ph lph mot hm lt g i).1 = g := by
  simp only [drawTileStep, Grid.readTileOn, Grid.readAccent]
  repeat' split
  all_goals rfl

/-- Helper: threading a state-preserving loop body leaves the threaded
state unchanged. -/
theorem threadMap_fst_of_preserving {σ α β : Type} (f : σ → α → σ × β)
    (hf : ∀ s a, (f s a).1 = s) :
    ∀ (s : σ) (l : List α), (threadMap f s l).1 = s := by
  intro s l
  induction l generalizing s with
  | nil => rfl
  | cons a as ih =>
    have h1 : (f s a).1 = s := hf s a
    simp [threadMap, h1, ih]

/-- Helper: the outputs of threading a state-preserving loop body are the
per-element outputs at the initial state. -/
theorem threadMap_snd_of_preserving {σ α β : Type} (f : σ → α → σ × β)
    (hf : ∀ s a, (f s a).1 = s) :
    ∀ (s : σ) (l : List α),
      (threadMap f s l).2 = l.map fun a => (f s a).2 := by
  intro s l
  induction l generalizing s with
  | nil => rfl
  | cons a as ih =>
    have h1 : (f s a).1 = s := hf s a
    simp [threadMap, h1, ih]

/-- C7: `update(grid)` leaves the grid unchanged — the grid threaded
through every read of the frame comes back exactly as it went in; the
frame's effects are confined to the canvas pixels, the particle pool and
the renderer's own snapshot state. -/
theorem update_leaves_grid_unchanged (st : RendererState)
    (cw ch : ℕ) (dpr : ℚ) (g : Grid) :
    (GridCanvasRenderer.update st cw ch dpr g).grid = g := by
  unfold GridCanvasRenderer.update draw Grid.readPlayheadX
  simp only
  exact threadMap_fst_of_preserving _
    (fun s i => drawTileStep_grid _ _ _ _ _ _ _ _ _ _ s i) g _

/-- Helper: the burst component of the tile loop body, in closed form. -/
theorem drawTileStep_burst (gw gh : ℕ) (cw ch : ℚ) (dpr : ℚ)
    (ph lph : ℤ) (mot : Option TileCoord) (hm : List ℚ) (lt : ℚ)
    (g : Grid) (i : ℕ) :
    (drawTileStep gw gh cw ch dpr ph lph mot hm lt g i).2.1 =
      if (g.data.getD i defaultTile).isEmpty = false ∧
          (indexToCoord (i : ℤ) (gh : ℤ)).1 = ph ∧ ph ≠ lph then
        some ⟨cw / (gw : ℚ) *
            (((indexToCoord (i : ℤ) (gh : ℤ)).1 : ℚ) + 1 / 2),
          ch / (gh : ℚ) *
            (((indexToCoord (i : ℤ) (gh : ℤ)).2 : ℚ) + 1 / 2),
          8 * dpr, 20⟩
      else none := by
  simp only [drawTileStep, Grid.readTileOn, Grid.readAccent]
  repeat' split
  all_goals simp_all

/-- Helper: counting occurrences in a `filterMap` by the producing
elements. -/
theorem count_filterMap_eq_countP {α β : Type} [DecidableEq β]
    (f : α → Option β) (b : β) (l : List α) :
    (l.filterMap f).count b = l.countP fun a => f a == some b := by
  induction l with
  | nil => rfl
  | cons a as ih =>
    rw [List.filterMap_cons, List.countP_cons]
    cases hfa : f a with
    | none => simp [hfa, ih]
    | some c =>
      by_cases hc : c = b
      · subst hc
        simp [hfa, List.count_cons, ih]
      · simp [hfa, List.count_cons, hc, ih]

/-- Helper: a range holds exactly one element satisfying a predicate that
pins its argument down to a member of the range. -/
theorem countP_range_unique (n i0 : ℕ) (p : ℕ → Bool)
    (hp : ∀ i, p i = true ↔ i = i0) (hi : i0 < n) :
    (List.range n).countP p = 1 := by
  have h1 : (List.range n).countP p = (List.range n).countP (· == i0) := by
    apply List.countP_congr
    intro a _
    rw [hp a, beq_iff_eq]
  have h2 : (List.range n).countP (· == i0) = (List.range n).count i0 := rfl
  rw [h1, h2]
  exact List.count_eq_one_of_mem (List.nodup_range n) (List.mem_range.mpr hi)

/-- Helper: the burst requests of one `draw`, as a `filterMap` over the
tile indices. -/
theorem draw_bursts_eq (st : RendererState) (cw ch : ℕ) (dpr : ℚ)
    (g : Grid) (mouseX mouseY : JSNum) :
    (draw st cw ch dpr g mouseX mouseY).bursts =
      (List.range g.data.length).filterMap fun i =>
        (drawTileStep g.width g.height (cw : ℚ) (ch : ℚ) dpr
          g.getPlayheadX st.lastPlayheadX
          (pixelCoordsToTileCoords mouseX mouseY g.width g.height
            (cw : ℚ) (ch : ℚ))
          (getParticleHeatMap st.particleSystem.particles g.width g.height
            (cw : ℚ) (ch : ℚ))
          st.particleSystem.PARTICLE_LIFETIME g i).2.1 := by
  simp only [draw, Grid.readPlayheadX]
  rw [threadMap_snd_of_preserving _
    (fun s i => drawTileStep_grid _ _ _ _ _ _ _ _ _ _ s i)]
  rw [List.filterMap_map]
  rfl

/-- C4: during a single `draw`, when the playhead column differs from the
previous frame's recorded column, exactly one particle burst centred on
the tile's pixel midpoint is issued for every lit tile in the playhead
column; on a frame where the playhead column equals the recorded one, no
burst at all is issued. -/
theorem draw_bursts_on_playhead_arrival (st : RendererState)
    (cw ch : ℕ) (dpr : ℚ) (g : Grid) (mouseX mouseY : JSNum)
    (hlen : g.data.length = g.width * g.height)
    (hw : 0 < g.width) (hh : 0 < g.height) (hcw : 0 < cw) (hch : 0 < ch) :
    (∀ x y : ℕ, x < g.width → y < g.height →
      (g.data.getD (x * g.height + y) defaultTile).isEmpty = false →
      (x : ℤ) = g.getPlayheadX → g.getPlayheadX ≠ st.lastPlayheadX →
      (draw st cw ch dpr g mouseX mouseY).bursts.count
        ⟨((cw : ℕ) : ℚ) / (g.width : ℚ) * (((x : ℕ) : ℚ) + 1 / 2),
          ((ch : ℕ) : ℚ) / (g.height : ℚ) * (((y : ℕ) : ℚ) + 1 / 2),
          8 * dpr, 20⟩ = 1) ∧
    (g.getPlayheadX = st.lastPlayheadX →
      (draw st cw ch dpr g mouseX mouseY).bursts = []) := by
  have hgw : ((g.width : ℕ) : ℚ) ≠ 0 := Nat.cast_ne_zero.mpr hw.ne'
  have hgh : ((g.height : ℕ) : ℚ) ≠ 0 := Nat.cast_ne_zero.mpr hh.ne'
  have hdx : ((cw : ℕ) : ℚ) / (g.width : ℚ) ≠ 0 :=
    div_ne_zero (Nat.cast_ne_zero.mpr hcw.ne') hgw
  have hdy : ((ch : ℕ) : ℚ) / (g.height : ℚ) ≠ 0 :=
    div_ne_zero (Nat.cast_ne_zero.mpr hch.ne') hgh
  constructor
  · intro x y hx hy hlit hcol hne
    rw [draw_bursts_eq, count_filterMap_eq_countP]
    apply countP_range_unique _ (x * g.height + y)
    · intro i
      rw [drawTileStep_burst]
      constructor
      · intro hbeq
        by_cases hcond : (g.data.getD i defaultTile).isEmpty = false ∧
            (indexToCoord (i : ℤ) (g.height : ℤ)).1 = g.getPlayheadX ∧
            g.getPlayheadX ≠ st.lastPlayheadX
        · rw [if_pos hcond] at hbeq
          rw [beq_iff_eq, Option.some_inj, Burst.mk.injEq] at hbeq
          obtain ⟨hbx, hby, -, -⟩ := hbeq
          have hgx :
              (((indexToCoord (i : ℤ) (g.height : ℤ)).1 : ℚ) + 1 / 2) =
                (((x : ℕ) : ℚ) + 1 / 2) := mul_left_cancel₀ hdx hbx
          have hgy :
              (((indexToCoord (i : ℤ) (g.height : ℤ)).2 : ℚ) + 1 / 2) =
                (((y : ℕ) : ℚ) + 1 / 2) := mul_left_cancel₀ hdy hby
          have hgx2 : (indexToCoord (i : ℤ) (g.height : ℤ)).1 = (x : ℤ) := by
            have := add_right_cancel hgx
            exact_mod_cast this
          have hgy2 : (indexToCoord (i : ℤ) (g.height : ℤ)).2 = (y : ℤ) := by
            have := add_right_cancel hgy
            exact_mod_cast this
          have hrt := coordToIndex_indexToCoord (i : ℤ) (g.height : ℤ)
            (Int.natCast_nonneg i) (by exact_mod_cast hh)
          rw [hgx2, hgy2] at hrt
          unfold coordToIndex at hrt
          exact_mod_cast hrt.symm
        · rw [if_neg hcond] at hbeq
          exact absurd hbeq (by simp)
      · intro hieq
        subst hieq
        have hidx : indexToCoord ((x * g.height + y : ℕ) : ℤ)
            (g.height : ℤ) = ((x : ℤ), (y : ℤ)) := by
          have h0 := indexToCoord_coordToIndex (x : ℤ) (y : ℤ)
            (g.height : ℤ) (Int.natCast_nonneg x) (Int.natCast_nonneg y)
            (by exact_mod_cast hy)
          unfold coordToIndex at h0
          rw [show ((x * g.height + y : ℕ) : ℤ) =
            (x : ℤ) * (g.height : ℤ) + (y : ℤ) by push_cast; ring]
          exact h0
        rw [if_pos ⟨hlit, by rw [hidx]; exact hcol, hne⟩]
        rw [beq_iff_eq, Option.some_inj, Burst.mk.injEq]
        refine ⟨?_, ?_, rfl, rfl⟩
        · rw [hidx]
          simp
        · rw [hidx]
          simp
    · rw [hlen]
      have hstep : x * g.height + y < (x + 1) * g.height := by
        rw [Nat.succ_mul]
        omega
      exact lt_of_lt_of_le hstep
        (Nat.mul_le_mul_right g.height (Nat.succ_le_of_lt hx))
  · intro heq
    rw [draw_bursts_eq]
    rw [List.filterMap_eq_nil_iff]
    intro i hmem
    rw [drawTileStep_burst, if_neg]
    intro hcond
    exact hcond.2.2 heq

/-- A 1-by-1 grid whose single tile is lit (note handle 5 on channel 0)
and whose first instrument reports playhead column 0. -/
def litGrid : Grid :=
  ⟨1, 1, [⟨[(0, 5)]⟩], 0, [⟨0, 1, [5]⟩, ⟨0, 0, []⟩]⟩

/-- Witness for C4: on the constructor state (`lastPlayheadX = -1`), a
frame over `litGrid` (playhead 0) bursts exactly once at the midpoint of
tile `(0, 0)`. -/
theorem draw_bursts_on_playhead_arrival_witness :
    litGrid.getPlayheadX ≠ initRendererState.lastPlayheadX ∧
      (litGrid.data.getD (0 * litGrid.height + 0) defaultTile).isEmpty
        = false ∧
      (draw initRendererState 2 2 1 litGrid none none).bursts.count
        ⟨((2 : ℕ) : ℚ) / (litGrid.width : ℚ) * (((0 : ℕ) : ℚ) + 1 / 2),
          ((2 : ℕ) : ℚ) / (litGrid.height : ℚ) * (((0 : ℕ) : ℚ) + 1 / 2),
          8 * 1, 20⟩ = 1 :=
  ⟨by decide, by decide,
    (draw_bursts_on_playhead_arrival initRendererState 2 2 1 litGrid
        none none (by decide) (by decide) (by decide) (by decide)
        (by decide)).1
      0 0 (by decide) (by decide) (by decide) (by decide) (by decide)⟩

end ToneMatrix
